import Mathlib

/-!
Shallow embedding of Umbra.js (src/umbra.js, version 1.4.0): a visibility
control utility for Frappe form UI.

Modelling conventions:
- JavaScript values that the source inspects only through typeof or
  truthiness tests are modelled by small inductive types recording exactly
  the distinctions the source makes.
- A conditional callback is observed by the source only through the result
  of calling it once on a fixed ambient argument, so it is modelled by the
  value of that one call: it returns a boolean or throws.
- DOM mutations, console messages and user facing alerts are recorded in
  explicit outcome records; an exception escaping to the caller is an
  Except.error.
- Ambient browser state (window.cur_frm, the role service frappe.user,
  frappe.boot and the hostname) is passed as explicit parameters.
-/

namespace Umbra

/-- Console message severity: console.warn versus console.debug. -/
inductive Level
  | warn
  | debugMsg
deriving DecidableEq

/-- One console message. -/
structure Msg where
  level : Level
  text : String
deriving DecidableEq

/-- Exceptions that can escape an operation to its caller. -/
inductive JsErr
  | typeError
  | refError
  | condException
deriving DecidableEq

/-- Final display state written to a region by a css mutation. -/
inductive Vis
  | hidden
  | shown
deriving DecidableEq

/-- What one call to an operation did: an optional css mutation to the
operation's target region, the console messages, and the user alerts. -/
structure Outcome where
  mutation : Option Vis
  logs : List Msg
  alerts : List String
deriving DecidableEq

/-- Result of the one call the source makes to a conditional callback:
it returns a boolean or throws. -/
inductive CondVal
  | ret (b : Bool)
  | exn
deriving DecidableEq

/-- The conditional prop as the source discriminates it: absent
(typeof undefined), present but not callable, or a function whose single
invocation yields the recorded CondVal. -/
inductive Conditional
  | undef
  | notFn
  | fn (v : CondVal)
deriving DecidableEq

/-- The permissions prop as the source discriminates it with
Array.isArray: absent, a non array value, or an actual array of roles. -/
inductive PermProp
  | undef
  | notArray
  | arr (roles : List String)
deriving DecidableEq

/-- The common props shape of the region hiding operations. -/
structure HideProps where
  conditional : Conditional
  permissions : PermProp
  debug : Bool
deriving DecidableEq

/-- The props argument itself may be left out entirely (undefined). -/
inductive PropsArg
  | undef
  | obj (p : HideProps)
deriving DecidableEq

/-- Ambient environment information read by getEnvironment: either
frappe.boot carries developer_mode, or only the hostname is available. -/
inductive BootInfo
  | boot (developerMode : Bool)
  | noBoot (hostname : Option String)
deriving DecidableEq

/-- src/umbra.js lines 41-53: frappe.boot.developer_mode wins, then a
hostname allowlist, defaulting to production. -/
def getEnvironment : BootInfo → String
  | .boot dm => if dm then "development" else "production"
  | .noBoot (some h) =>
      if h = "localhost" ∨ h = "127.0.0.1" then "development" else "production"
  | .noBoot none => "production"

/-- The guard props.debug && getEnvironment() === "development" used at
every gated log site. -/
def devGate (debug : Bool) (env : BootInfo) : Bool :=
  debug && (getEnvironment env == "development")

/-- src/umbra.js lines 19-27: false on a missing or non array argument,
otherwise true iff the user holds at least one listed role. -/
def userHasRole (hasRole : String → Bool) : PermProp → Bool
  | .arr roles => roles.any hasRole
  | _ => false

/-- The callers' Array.isArray(props.permissions) test. -/
def isArrayPerm : PermProp → Bool
  | .arr _ => true
  | _ => false

/-- A log entry emitted only when the debug gate is open. -/
def dlog (g : Bool) (l : Level) (t : String) : List Msg :=
  if g then [⟨l, t⟩] else []

/-- src/umbra.js lines 94-127, the body of actions once cur_frm and its
doctype are known to be present.  Order: reject a defined non function
conditional, then the permission bypass, then the toggle write: with a
conditional the region display is block when it returns false and none
when it returns true; without one the region is always hidden. -/
def actionsMain (hasRole : String → Bool) (env : BootInfo) (p : HideProps) :
    Except JsErr Outcome :=
  let g := devGate p.debug env
  match p.conditional with
  | .notFn =>
      .ok ⟨none, dlog g .debugMsg "Umbra.action(): conditional must be a function.", []⟩
  | c =>
      if isArrayPerm p.permissions && userHasRole hasRole p.permissions then
        .ok ⟨none, dlog g .debugMsg "Umbra.actions(): User has bypass role, skipping hide.", []⟩
      else
        match c with
        | .fn .exn => .error .condException
        | .fn (.ret b) =>
            .ok ⟨some (if b then Vis.hidden else Vis.shown),
              dlog (g && !b) .debugMsg "Umbra.actions(): Conditional check returned false."
                ++ dlog g .debugMsg "Umbra.actions(): Actions hidden.", []⟩
        | _ =>
            .ok ⟨some Vis.hidden,
              dlog g .debugMsg "Umbra.actions(): Actions hidden.", []⟩

/-- src/umbra.js lines 86-127.  curFrm is some doctype when
window.cur_frm with a truthy doctype is available.  The source reads
props.debug in the no doctype branch before the props = props or empty
normalization, so an undefined props there is a TypeError. -/
def actions (hasRole : String → Bool) (env : BootInfo) (curFrm : Option String) :
    PropsArg → Except JsErr Outcome
  | .undef =>
      match curFrm with
      | some _ => actionsMain hasRole env ⟨.undef, .undef, false⟩
      | none => .error .typeError
  | .obj p =>
      match curFrm with
      | some _ => actionsMain hasRole env p
      | none =>
          .ok ⟨none,
            dlog (devGate p.debug env) .warn
              "Umbra.actions(): No doctype specified and window.cur_frm is not available.", []⟩

/-- src/umbra.js lines 405-426, the body of comment once the doctype is
known.  A conditional is consulted only when it is a function; a false
return aborts; then the permission bypass; then the hide. -/
def commentMain (hasRole : String → Bool) (env : BootInfo) (p : HideProps) :
    Except JsErr Outcome :=
  let g := devGate p.debug env
  match p.conditional with
  | .fn .exn => .error .condException
  | .fn (.ret false) =>
      .ok ⟨none, dlog g .debugMsg "Umbra.comment(): Conditional check returned false.", []⟩
  | _ =>
      if isArrayPerm p.permissions && userHasRole hasRole p.permissions then
        .ok ⟨none, dlog g .debugMsg "Umbra.comment(): User has bypass role, skipping comment hiding.", []⟩
      else
        .ok ⟨some Vis.hidden, dlog g .debugMsg "Umbra.comment(): Comment box hidden.", []⟩

/-- src/umbra.js lines 396-426.  As in actions, props.debug is read in
the no doctype branch before the props normalization. -/
def comment (hasRole : String → Bool) (env : BootInfo) (curFrm : Option String) :
    PropsArg → Except JsErr Outcome
  | .undef =>
      match curFrm with
      | some _ => commentMain hasRole env ⟨.undef, .undef, false⟩
      | none => .error .typeError
  | .obj p =>
      match curFrm with
      | some _ => commentMain hasRole env p
      | none =>
          .ok ⟨none,
            dlog (devGate p.debug env) .warn
              "Umbra.comment(): No doctype specified and window.cur_frm is not available.", []⟩

/-- src/umbra.js lines 465-492, the body of sidebar once the doctype is
known; same shape as comment (the two css writes are one mutation of the
sidebar region). -/
def sidebarMain (hasRole : String → Bool) (env : BootInfo) (p : HideProps) :
    Except JsErr Outcome :=
  let g := devGate p.debug env
  match p.conditional with
  | .fn .exn => .error .condException
  | .fn (.ret false) =>
      .ok ⟨none, dlog g .debugMsg "Umbra.sidebar(): Conditional check returned false.", []⟩
  | _ =>
      if isArrayPerm p.permissions && userHasRole hasRole p.permissions then
        .ok ⟨none, dlog g .debugMsg "Umbra.sidebar(): User has bypass role, skipping sidebar hiding.", []⟩
      else
        .ok ⟨some Vis.hidden, dlog g .debugMsg "Umbra.sidebar(): Sidebar hidden.", []⟩

/-- src/umbra.js lines 456-492. -/
def sidebar (hasRole : String → Bool) (env : BootInfo) (curFrm : Option String) :
    PropsArg → Except JsErr Outcome
  | .undef =>
      match curFrm with
      | some _ => sidebarMain hasRole env ⟨.undef, .undef, false⟩
      | none => .error .typeError
  | .obj p =>
      match curFrm with
      | some _ => sidebarMain hasRole env p
      | none =>
          .ok ⟨none,
            dlog (devGate p.debug env) .warn
              "Umbra.sidebar(): No doctype specified and window.cur_frm is not available.", []⟩

/-- src/umbra.js lines 526-585: the dynamic per field hide operation
Umbra.field.FIELD_NAME(props).  props defaults to an object, so no
undefined props hazard here.  frm is some fields dictionary (name to
fieldtype) when cur_frm with a fields_dict is present.  Order: Utils
availability, conditional must be a function, permission bypass, field
lookup with a kind check, then delegation to Utils.hideFields (modelled
as the hide mutation). -/
def fieldOp (hasRole : String → Bool) (env : BootInfo) (utilsAvailable : Bool)
    (frm : Option (List (String × String))) (fieldName : String) (p : HideProps) :
    Except JsErr Outcome :=
  let g := devGate p.debug env
  if !utilsAvailable then
    .ok ⟨none, dlog g .warn "Umbra.field: Utils module is not available.",
      if g then ["Utils module is missing. Please include Utils.js."] else []⟩
  else
    match p.conditional with
    | .fn _ =>
        if isArrayPerm p.permissions && userHasRole hasRole p.permissions then
          .ok ⟨none, dlog g .debugMsg "Umbra.field: User has bypass role, skipping field hiding.", []⟩
        else
          match frm.bind (fun d => d.lookup fieldName) with
          | some ft =>
              if ft = "Tab Break" ∨ ft = "Section Break" ∨ ft = "Column Break" then
                .ok ⟨none,
                  [⟨.warn, "Umbra.field." ++ fieldName ++ "(): Field type " ++ ft
                      ++ " cannot be hidden using Umbra.field."⟩],
                  ["Field " ++ fieldName ++ " is a " ++ ft
                      ++ " and cannot be hidden using Umbra.field."]⟩
              else
                .ok ⟨some Vis.hidden,
                  dlog g .debugMsg ("Umbra.field: Field " ++ fieldName ++ " hidden."), []⟩
          | none =>
              .ok ⟨none,
                dlog g .warn ("Umbra.field." ++ fieldName ++ "(): Field not found in current form."),
                if g then ["Field " ++ fieldName ++ " not found in current form."] else []⟩
    | _ =>
        .ok ⟨none, dlog g .debugMsg "Umbra.field: conditional must be a function.", []⟩

/-- src/umbra.js lines 618-672: the dynamic per section hide operation
Umbra.section.SECTION_NAME(props).  Unlike the field variant, the kind
mismatch branch is entirely inside the debug gate, and its alert
interpolates the identifier fieldName, which is not in scope in the
section handler: when the gate is open the console.warn is emitted and
then the alert construction throws a ReferenceError; when the gate is
closed the branch returns silently. -/
def sectionOp (hasRole : String → Bool) (env : BootInfo) (utilsAvailable : Bool)
    (frm : Option (List (String × String))) (sectionName : String) (p : HideProps) :
    Except JsErr Outcome :=
  let g := devGate p.debug env
  if !utilsAvailable then
    .ok ⟨none, dlog g .warn "Umbra.section: Utils module is not available.",
      if g then ["Utils module is missing. Please include Utils.js."] else []⟩
  else
    match p.conditional with
    | .fn _ =>
        if isArrayPerm p.permissions && userHasRole hasRole p.permissions then
          .ok ⟨none, dlog g .debugMsg "Umbra.section: User has bypass role, skipping section hiding.", []⟩
        else
          match frm.bind (fun d => d.lookup sectionName) with
          | some ft =>
              if ft ≠ "Section Break" then
                if g then .error .refError
                else .ok ⟨none, [], []⟩
              else
                .ok ⟨some Vis.hidden,
                  dlog g .debugMsg ("Umbra.section: Section " ++ sectionName ++ " hidden."), []⟩
          | none =>
              .ok ⟨none,
                dlog g .warn ("Umbra.section." ++ sectionName ++ "(): Section not found in current form."),
                if g then ["Section " ++ sectionName ++ " not found in current form."] else []⟩
    | _ =>
        .ok ⟨none, dlog g .debugMsg "Umbra.section: conditional must be a function.", []⟩

/-- Kernel friendly model of the JavaScript String.split(",") used at
src/umbra.js line 332: splitting the empty string yields one empty
token, and every comma starts a new token. -/
def splitOnCommaAux : List Char → List Char → List (List Char)
  | [], acc => [acc.reverse]
  | c :: rest, acc =>
      if c = ',' then acc.reverse :: splitOnCommaAux rest []
      else splitOnCommaAux rest (c :: acc)

/-- JavaScript recipients.split(",") over a Lean String. -/
def splitOnComma (s : String) : List String :=
  (splitOnCommaAux s.toList []).map String.mk

/-- JavaScript String.trim: strip whitespace from both ends. -/
def trimStr (s : String) : String :=
  String.mk (((s.toList.dropWhile Char.isWhitespace).reverse.dropWhile Char.isWhitespace).reverse)

/-- src/umbra.js line 332: the recipients string parsed into trimmed
tokens. -/
def recipientTokens (r : String) : List String :=
  (splitOnComma r).map trimStr

/-- The communications sub filter: userOnly truthiness, and its nested
conditional when (and only when) it is a function. -/
structure CommFilter where
  userOnly : Bool
  conditional : Option CondVal
deriving DecidableEq

/-- A filter object as the source inspects it: truthiness of .all and
presence of a truthy .communications. -/
structure FilterObj where
  all : Bool
  communications : Option CommFilter
deriving DecidableEq

/-- The filter prop: falsy, an object, or a truthy non object (which the
source sends to the unrecognized branch). -/
inductive FilterProp
  | undef
  | obj (f : FilterObj)
  | nonObjTruthy
deriving DecidableEq

/-- The top level timeline conditional as discriminated at src/umbra.js
lines 212-224: undefined, a function (with its call result), the literal
false, or any other defined value (which falls through). -/
inductive TLCond
  | undef
  | fn (v : CondVal)
  | litFalse
  | otherTruthy
deriving DecidableEq

/-- The extras prop: falsy, a truthy non object, or an object with an
optional hideActivitySwitch member. -/
inductive ExtrasProp
  | undef
  | nonObj
  | obj (hideActivitySwitch : Option Bool)
deriving DecidableEq

/-- The timeline props object.  The source function never reads a
permissions member, but a caller may pass one (the HideRequest shape);
it is recorded here and ignored by the model exactly as by the code. -/
structure TimelineProps where
  conditional : TLCond
  filter : FilterProp
  extras : ExtrasProp
  permissions : PermProp
  debug : Bool
deriving DecidableEq

/-- One DOM timeline entry: its data-doctype attribute and its data-name
attribute, the empty string standing for a missing or empty (falsy)
attribute. -/
structure TLItem where
  doctype : String
  name : String
deriving DecidableEq

/-- The DOM as the timeline function probes it. -/
structure TLDom where
  wrapperExists : Bool
  containerExists : Bool
  items : List TLItem
deriving DecidableEq

/-- Visibility state of one timeline entry after the call. -/
inductive ItemVis
  | untouched
  | hidden
  | shown
deriving DecidableEq

/-- One record returned by the frappe.client.get_list fetch; a falsy
recipients value is collapsed to the empty string as by the source
record.recipients or empty fallback. -/
structure CommRecord where
  name : String
  sender : String
  recipients : String
deriving DecidableEq

/-- Completion of the asynchronous fetch: callback with a truthy
r.message (the record list), callback with a falsy r.message, or the
error handler. -/
inductive FetchOutcome
  | success (records : List CommRecord)
  | noMessage
  | failure
deriving DecidableEq

/-- Everything one timeline call did. -/
structure TLOutcome where
  wrapperHidden : Bool
  itemVis : List ItemVis
  activityHidden : Bool
  extrasRan : Bool
  fetchIssued : Bool
  logs : List Msg
deriving DecidableEq

/-- src/umbra.js lines 283-295 membership test: an entry enters the
communication map iff its data-doctype is Communication and its
data-name is truthy. -/
def isCommItem (i : TLItem) : Bool :=
  i.doctype == "Communication" && i.name != ""

/-- The commItems list collected at src/umbra.js lines 281-295. -/
def collectCommNames (items : List TLItem) : List String :=
  items.filterMap (fun i => if isCommItem i then some i.name else none)

/-- The commItemMap keys in insertion order (first occurrences). -/
def dedupNames (l : List String) : List String :=
  l.foldl (fun acc n => if acc.contains n then acc else acc ++ [n]) []

/-- The commRecords index built at src/umbra.js lines 319-322: a later
record with the same name overwrites an earlier one. -/
def findRecord (records : List CommRecord) (n : String) : Option CommRecord :=
  records.foldl (fun acc r => if r.name == n then some r else acc) none

/-- src/umbra.js lines 325-336: show the entry iff its record was
fetched and the current user is its sender or appears among its trimmed
comma separated recipients. -/
def shouldDisplay (user : String) : Option CommRecord → Bool
  | none => false
  | some r => r.sender == user || (recipientTokens r.recipients).contains user

/-- The effective hideActivitySwitch value computed at src/umbra.js
lines 199-204: true unless an extras object explicitly carries a value,
in which case that value is used. -/
def extrasFlag : ExtrasProp → Bool
  | .obj (some b) => b
  | _ => true

/-- The state of the page before the call touches anything. -/
def initOutcome (dom : TLDom) : TLOutcome :=
  ⟨false, dom.items.map (fun _ => ItemVis.untouched), false, false, false, []⟩

/-- src/umbra.js lines 198-209, processExtras: hide the show-all-activity
control when the effective flag is true.  The extrasRan flag records that
the step executed. -/
def processExtras (env : BootInfo) (props : TimelineProps) (o : TLOutcome) : TLOutcome :=
  let g := devGate props.debug env
  if extrasFlag props.extras then
    ⟨o.wrapperHidden, o.itemVis, true, true, o.fetchIssued,
      o.logs ++ dlog g .debugMsg "Umbra.timeline: Hiding extra element with class show-all-activity."⟩
  else
    ⟨o.wrapperHidden, o.itemVis, o.activityHidden, true, o.fetchIssued, o.logs⟩

/-- Result of the synchronous part of a timeline call: finished, or
suspended on the fetch with the collected communication names. -/
inductive TLCore
  | done (o : TLOutcome)
  | pending (o : TLOutcome) (commNames : List String)
deriving DecidableEq

/-- src/umbra.js lines 360-368, the unrecognized filter branch: hide the
wrapper; here the wrapper-not-found warning is debug gated. -/
def unrecognizedStep (g : Bool) (dom : TLDom) : TLOutcome :=
  if dom.wrapperExists then
    ⟨true, (initOutcome dom).itemVis, false, false, false,
      dlog g .debugMsg "Umbra.timeline: Unrecognized filter. Hiding entire timeline container."⟩
  else
    ⟨false, (initOutcome dom).itemVis, false, false, false,
      dlog g .warn "Umbra.timeline: Timeline wrapper (.new-timeline) not found."⟩

/-- src/umbra.js lines 252-359, the communications branch up to (and not
including) the asynchronous callback.  The nested conditional is the only
conditional in the file wrapped in try catch: a throw is logged as an
ungated warning and treated like a false return. -/
def commStep (g : Bool) (cf : CommFilter) (dom : TLDom) : TLCore :=
  match cf.conditional with
  | some .exn =>
      .done ⟨false, (initOutcome dom).itemVis, false, false, false,
        [⟨.warn, "Umbra.timeline: Error in communications filter conditional function."⟩]⟩
  | some (.ret false) =>
      .done ⟨false, (initOutcome dom).itemVis, false, false, false,
        dlog g .debugMsg "Umbra.timeline: Communications filter conditional check returned false."⟩
  | _ =>
      if !dom.containerExists then
        .done ⟨false, (initOutcome dom).itemVis, false, false, false,
          [⟨.warn, "Umbra.timeline: Timeline container (.timeline-items) not found."⟩]⟩
      else
        let hiddenVis := dom.items.map (fun _ => ItemVis.hidden)
        let names := collectCommNames dom.items
        let logs1 := dlog g .debugMsg "Umbra.timeline: Found timeline items."
          ++ dlog g .debugMsg "Umbra.timeline: Found communication items."
        if names.isEmpty then
          .done ⟨false, hiddenVis, false, false, false,
            logs1 ++ dlog g .debugMsg "Umbra.timeline: No communication items to process."⟩
        else if !cf.userOnly then
          .done ⟨false,
            dom.items.map (fun i => if isCommItem i then ItemVis.shown else ItemVis.hidden),
            false, false, false,
            logs1 ++ (dedupNames names).foldr
              (fun n acc => dlog g .debugMsg ("Umbra.timeline: Displaying communication " ++ n
                ++ " (all communications shown).") ++ acc) []⟩
        else
          .pending ⟨false, hiddenVis, false, false, true, logs1⟩ names

/-- src/umbra.js lines 194-370 without the trailing processExtras calls:
every synchronous return site of the source invokes processExtras
immediately before returning, so the model applies it by post composition
in the public timeline function below.  A throwing top level conditional
is not caught and escapes as an exception. -/
def timelineCore (env : BootInfo) (props : TimelineProps) (dom : TLDom) :
    Except JsErr TLCore :=
  let g := devGate props.debug env
  match props.conditional with
  | .fn .exn => .error .condException
  | .fn (.ret false) =>
      .ok (.done ⟨false, (initOutcome dom).itemVis, false, false, false,
        dlog g .debugMsg "Umbra.timeline: Top-level conditional check returned false."⟩)
  | .litFalse =>
      .ok (.done ⟨false, (initOutcome dom).itemVis, false, false, false,
        dlog g .debugMsg "Umbra.timeline: Top-level conditional is false."⟩)
  | _ =>
      match props.filter with
      | .undef =>
          .ok (.done (if dom.wrapperExists then
            ⟨true, (initOutcome dom).itemVis, false, false, false,
              dlog g .debugMsg "Umbra.timeline: No filter provided. Hiding entire timeline container."⟩
          else
            ⟨false, (initOutcome dom).itemVis, false, false, false,
              [⟨.warn, "Umbra.timeline: Timeline wrapper (.new-timeline) not found."⟩]⟩))
      | .nonObjTruthy => .ok (.done (unrecognizedStep g dom))
      | .obj f =>
          if f.all then
            .ok (.done (if dom.containerExists then
              ⟨false, dom.items.map (fun _ => ItemVis.shown), false, false, false,
                dlog g .debugMsg "Umbra.timeline: Filter set to all. Displaying all timeline items."⟩
            else
              ⟨false, (initOutcome dom).itemVis, false, false, false,
                [⟨.warn, "Umbra.timeline: Timeline container (.timeline-items) not found."⟩]⟩))
          else
            match f.communications with
            | some cf => .ok (commStep g cf dom)
            | none => .ok (.done (unrecognizedStep g dom))

/-- src/umbra.js lines 310-357: the fetch callback and error handler.
On a truthy r.message each mapped entry is shown iff its record passes
shouldDisplay; all other entries stay hidden.  Every handler finishes
with processExtras. -/
def timelineCallback (env : BootInfo) (user : String) (props : TimelineProps)
    (items : List TLItem) (pre : TLOutcome) (fetch : FetchOutcome) : TLOutcome :=
  let g := devGate props.debug env
  match fetch with
  | .success records =>
      let vis := items.map (fun i =>
        if isCommItem i then
          if shouldDisplay user (findRecord records i.name) then ItemVis.shown else ItemVis.hidden
        else ItemVis.hidden)
      let nmLogs := (dedupNames (collectCommNames items)).foldr
        (fun n acc =>
          (match findRecord records n with
          | none => dlog g .warn ("Umbra.timeline: Communication record not found for " ++ n)
          | some r =>
              if shouldDisplay user (some r) then
                dlog g .debugMsg ("Umbra.timeline: Displaying communication " ++ n ++ " for current user.")
              else
                dlog g .debugMsg ("Umbra.timeline: Hiding communication " ++ n ++ " not meant for current user."))
          ++ acc) []
      processExtras env props
        ⟨pre.wrapperHidden, vis, pre.activityHidden, pre.extrasRan, pre.fetchIssued,
          pre.logs ++ nmLogs⟩
  | .noMessage =>
      processExtras env props
        ⟨pre.wrapperHidden, pre.itemVis, pre.activityHidden, pre.extrasRan, pre.fetchIssued,
          pre.logs ++ dlog g .warn "Umbra.timeline: Error fetching communication records."⟩
  | .failure =>
      processExtras env props
        ⟨pre.wrapperHidden, pre.itemVis, pre.activityHidden, pre.extrasRan, pre.fetchIssued,
          pre.logs ++ dlog g .warn "Umbra.timeline: Error during frappe.call."⟩

/-- src/umbra.js lines 194-370, the public timeline operation, with the
fetch completion passed as an oracle for the asynchronous branch.  The
ambient role service is in scope for the source closure but is never
consulted by the timeline function; the parameter records that. -/
def timeline (env : BootInfo) (user : String) (_hasRole : String → Bool)
    (props : TimelineProps) (dom : TLDom) (fetch : FetchOutcome) :
    Except JsErr TLOutcome :=
  match timelineCore env props dom with
  | .error e => .error e
  | .ok (.done o) => .ok (processExtras env props o)
  | .ok (.pending o _) => .ok (timelineCallback env user props dom.items o fetch)

/-- Mutation performed by a region hider call; an escaped exception
performs none. -/
def okMutation : Except JsErr Outcome → Option Vis
  | .ok o => o.mutation
  | .error _ => none

/-- Console messages emitted by a completed region hider call. -/
def okLogs : Except JsErr Outcome → List Msg
  | .ok o => o.logs
  | .error _ => []

/-- Projection through a normally returning timeline call. -/
def tlProj {α : Type} (f : TLOutcome → α) : Except JsErr TLOutcome → Option α
  | .ok o => some (f o)
  | .error _ => none

/-- The itemVis recorded at the point the userOnly fetch is issued. -/
def corePendingVis : Except JsErr TLCore → Option (List ItemVis)
  | .ok (.pending o _) => some o.itemVis
  | _ => none

theorem processExtras_itemVis (env : BootInfo) (props : TimelineProps) (o : TLOutcome) :
    (processExtras env props o).itemVis = o.itemVis := by
  unfold processExtras; split <;> rfl

theorem processExtras_wrapperHidden (env : BootInfo) (props : TimelineProps) (o : TLOutcome) :
    (processExtras env props o).wrapperHidden = o.wrapperHidden := by
  unfold processExtras; split <;> rfl

theorem processExtras_extrasRan (env : BootInfo) (props : TimelineProps) (o : TLOutcome) :
    (processExtras env props o).extrasRan = true := by
  unfold processExtras; split <;> rfl

theorem processExtras_activity (env : BootInfo) (props : TimelineProps) (o : TLOutcome)
    (h : o.activityHidden = false) :
    (processExtras env props o).activityHidden = extrasFlag props.extras := by
  unfold processExtras
  split
  · rename_i hf; simp [hf]
  · rename_i hf
    simp only [Bool.not_eq_true] at hf
    simp [h, hf]

/-- Claim C1: for the actions operation, when the conditional is absent
the actions region is always hidden; when a (callable) conditional is
present the final visibility is the negation of its result - shown on
false, hidden on true - unlike other operations such as comment and
sidebar, where a false conditional means no mutation occurs. -/
theorem claim1_actions_toggle (hasRole : String → Bool) (env : BootInfo) (dt : String)
    (p : HideProps)
    (hperm : (isArrayPerm p.permissions && userHasRole hasRole p.permissions) = false) :
    (p.conditional = Conditional.undef →
      Except.map Outcome.mutation (actions hasRole env (some dt) (PropsArg.obj p)) =
        .ok (some Vis.hidden)) ∧
    (∀ b, p.conditional = Conditional.fn (CondVal.ret b) →
      Except.map Outcome.mutation (actions hasRole env (some dt) (PropsArg.obj p)) =
        .ok (some (if b then Vis.hidden else Vis.shown))) ∧
    (∀ q : HideProps, q.conditional = Conditional.fn (CondVal.ret false) →
      Except.map Outcome.mutation (comment hasRole env (some dt) (PropsArg.obj q)) = .ok none) ∧
    (∀ q : HideProps, q.conditional = Conditional.fn (CondVal.ret false) →
      Except.map Outcome.mutation (sidebar hasRole env (some dt) (PropsArg.obj q)) = .ok none) := by
  refine ⟨?_, ?_, ?_, ?_⟩
  · intro h; simp [actions, actionsMain, h, hperm, Except.map]
  · intro b h; simp [actions, actionsMain, h, hperm, Except.map]
  · intro q h; simp [comment, commentMain, h, Except.map]
  · intro q h; simp [sidebar, sidebarMain, h, Except.map]

/-- Witness for claim C1 at a concrete input: no bypass role, and a
conditional returning false leaves the actions region shown. -/
theorem claim1_witness :
    (isArrayPerm PermProp.undef && userHasRole (fun _ => false) PermProp.undef) = false ∧
    Except.map Outcome.mutation (actions (fun _ => false) (BootInfo.noBoot none) (some "Meat")
      (PropsArg.obj ⟨Conditional.fn (CondVal.ret false), PermProp.undef, false⟩)) =
      .ok (some (if false then Vis.hidden else Vis.shown)) :=
  ⟨rfl, (claim1_actions_toggle (fun _ => false) (BootInfo.noBoot none) "Meat"
      ⟨Conditional.fn (CondVal.ret false), PermProp.undef, false⟩ rfl).2.1 false rfl⟩

/-- Claim C2: the spec states that no operation ever throws across the
public boundary, and the source intends an undefined props to be
normalized (props = props or empty object), but actions, comment and
sidebar read props.debug in their no-doctype branch before that
normalization: calling them with no argument while window.cur_frm is
unavailable throws a TypeError to the caller. -/
theorem claim2_props_undefined_throws :
    actions (fun _ => false) (BootInfo.noBoot none) none PropsArg.undef =
      .error JsErr.typeError ∧
    comment (fun _ => false) (BootInfo.noBoot none) none PropsArg.undef =
      .error JsErr.typeError ∧
    sidebar (fun _ => false) (BootInfo.noBoot none) none PropsArg.undef =
      .error JsErr.typeError :=
  ⟨rfl, rfl, rfl⟩

/-- Claim C10: an empty permissions array and a non array permissions
value never trigger the role bypass: userHasRole is false on them, and
actions, comment and sidebar behave exactly as when permissions is
omitted. -/
theorem claim10_empty_permissions_no_bypass (hasRole : String → Bool) :
    userHasRole hasRole (PermProp.arr []) = false ∧
    userHasRole hasRole PermProp.notArray = false ∧
    userHasRole hasRole PermProp.undef = false ∧
    (∀ (env : BootInfo) (curFrm : Option String) (c : Conditional) (d : Bool),
      actions hasRole env curFrm (PropsArg.obj ⟨c, PermProp.arr [], d⟩) =
        actions hasRole env curFrm (PropsArg.obj ⟨c, PermProp.undef, d⟩) ∧
      actions hasRole env curFrm (PropsArg.obj ⟨c, PermProp.notArray, d⟩) =
        actions hasRole env curFrm (PropsArg.obj ⟨c, PermProp.undef, d⟩) ∧
      comment hasRole env curFrm (PropsArg.obj ⟨c, PermProp.arr [], d⟩) =
        comment hasRole env curFrm (PropsArg.obj ⟨c, PermProp.undef, d⟩) ∧
      comment hasRole env curFrm (PropsArg.obj ⟨c, PermProp.notArray, d⟩) =
        comment hasRole env curFrm (PropsArg.obj ⟨c, PermProp.undef, d⟩) ∧
      sidebar hasRole env curFrm (PropsArg.obj ⟨c, PermProp.arr [], d⟩) =
        sidebar hasRole env curFrm (PropsArg.obj ⟨c, PermProp.undef, d⟩) ∧
      sidebar hasRole env curFrm (PropsArg.obj ⟨c, PermProp.notArray, d⟩) =
        sidebar hasRole env curFrm (PropsArg.obj ⟨c, PermProp.undef, d⟩)) := by
  refine ⟨rfl, rfl, rfl, ?_⟩
  intro env curFrm c d
  cases curFrm <;> cases c <;>
    refine ⟨rfl, rfl, rfl, rfl, rfl, rfl⟩

/-- Counterexample to claim C3: in a production environment, with debug
even set to true, a timeline call that finds no timeline wrapper emits a
console warning - the wrapper-not-found warning at src/umbra.js line 233
is not gated on debug or environment. -/
theorem claim3_production_warn_cex :
    getEnvironment (BootInfo.noBoot none) = "production" ∧
    Except.map TLOutcome.logs
      (timeline (BootInfo.noBoot none) "user" (fun _ => false)
        ⟨TLCond.undef, FilterProp.undef, ExtrasProp.undef, PermProp.undef, true⟩
        ⟨false, false, []⟩ FetchOutcome.failure) =
      .ok [⟨Level.warn, "Umbra.timeline: Timeline wrapper (.new-timeline) not found."⟩] :=
  ⟨rfl, rfl⟩

/-- Claim C3 amended: debug gated diagnostics never emit in production;
in particular the actions, comment and sidebar operations, whose every
message is debug gated, emit no message at all in production even with
debug set to true.  (Timeline and the dynamic dispatcher additionally
emit ungated not-found and kind-mismatch warnings, in any environment;
see the counterexample.) -/
theorem claim3_amended_no_logs_in_production (hasRole : String → Bool) (env : BootInfo)
    (hprod : getEnvironment env = "production") (curFrm : Option String) (pa : PropsArg) :
    okLogs (actions hasRole env curFrm pa) = [] ∧
    okLogs (comment hasRole env curFrm pa) = [] ∧
    okLogs (sidebar hasRole env curFrm pa) = [] := by
  have hg : ∀ d : Bool, devGate d env = false := by
    intro d; simp [devGate, hprod]
  have ha : ∀ q : HideProps, okLogs (actionsMain hasRole env q) = [] := by
    intro ⟨c, pm, d⟩
    cases c with
    | undef => cases hb : (isArrayPerm pm && userHasRole hasRole pm) <;>
        simp [actionsMain, okLogs, hb, hg, dlog]
    | notFn => simp [actionsMain, okLogs, hg, dlog]
    | fn v =>
        cases hb : (isArrayPerm pm && userHasRole hasRole pm) <;>
          cases v with
          | exn => simp [actionsMain, okLogs, hb, hg, dlog]
          | ret b => cases b <;> simp [actionsMain, okLogs, hb, hg, dlog]
  have hc : ∀ q : HideProps, okLogs (commentMain hasRole env q) = [] := by
    intro ⟨c, pm, d⟩
    cases c with
    | undef => cases hb : (isArrayPerm pm && userHasRole hasRole pm) <;>
        simp [commentMain, okLogs, hb, hg, dlog]
    | notFn => cases hb : (isArrayPerm pm && userHasRole hasRole pm) <;>
        simp [commentMain, okLogs, hb, hg, dlog]
    | fn v =>
        cases hb : (isArrayPerm pm && userHasRole hasRole pm) <;>
          cases v with
          | exn => simp [commentMain, okLogs, hb, hg, dlog]
          | ret b => cases b <;> simp [commentMain, okLogs, hb, hg, dlog]
  have hs : ∀ q : HideProps, okLogs (sidebarMain hasRole env q) = [] := by
    intro ⟨c, pm, d⟩
    cases c with
    | undef => cases hb : (isArrayPerm pm && userHasRole hasRole pm) <;>
        simp [sidebarMain, okLogs, hb, hg, dlog]
    | notFn => cases hb : (isArrayPerm pm && userHasRole hasRole pm) <;>
        simp [sidebarMain, okLogs, hb, hg, dlog]
    | fn v =>
        cases hb : (isArrayPerm pm && userHasRole hasRole pm) <;>
          cases v with
          | exn => simp [sidebarMain, okLogs, hb, hg, dlog]
          | ret b => cases b <;> simp [sidebarMain, okLogs, hb, hg, dlog]
  refine ⟨?_, ?_, ?_⟩
  · cases pa with
    | undef =>
        cases curFrm with
        | none => rfl
        | some dt => exact ha ⟨Conditional.undef, PermProp.undef, false⟩
    | obj q =>
        cases curFrm with
        | none => simp [actions, okLogs, hg, dlog]
        | some dt => exact ha q
  · cases pa with
    | undef =>
        cases curFrm with
        | none => rfl
        | some dt => exact hc ⟨Conditional.undef, PermProp.undef, false⟩
    | obj q =>
        cases curFrm with
        | none => simp [comment, okLogs, hg, dlog]
        | some dt => exact hc q
  · cases pa with
    | undef =>
        cases curFrm with
        | none => rfl
        | some dt => exact hs ⟨Conditional.undef, PermProp.undef, false⟩
    | obj q =>
        cases curFrm with
        | none => simp [sidebar, okLogs, hg, dlog]
        | some dt => exact hs q

/-- Witness for claim C3 amended at a concrete production input with
debug set to true. -/
theorem claim3_witness :
    getEnvironment (BootInfo.noBoot none) = "production" ∧
    okLogs (actions (fun _ => false) (BootInfo.noBoot none) (some "Meat")
      (PropsArg.obj ⟨Conditional.undef, PermProp.undef, true⟩)) = [] :=
  ⟨rfl, (claim3_amended_no_logs_in_production (fun _ => false) (BootInfo.noBoot none) rfl
      (some "Meat") (PropsArg.obj ⟨Conditional.undef, PermProp.undef, true⟩)).1⟩

/-- Counterexample to claim C4: timeline accepts the HideRequest shape
but never reads permissions; with a user who holds the one listed role,
a timeline call still hides the wrapper (a UI mutation). -/
theorem claim4_timeline_ignores_permissions_cex :
    (fun _ : String => true) "System Manager" = true ∧
    Except.map TLOutcome.wrapperHidden
      (timeline (BootInfo.noBoot none) "user" (fun _ => true)
        ⟨TLCond.undef, FilterProp.undef, ExtrasProp.undef,
          PermProp.arr ["System Manager"], false⟩
        ⟨true, false, []⟩ FetchOutcome.failure) = .ok true :=
  ⟨rfl, rfl⟩

/-- Claim C4 amended: every operation that implements the permission
bypass (actions, comment, sidebar, and the field and section
dispatchers) performs no UI mutation when the current user holds a
listed role, irrespective of the conditional result; timeline is the
exception: it ignores permissions entirely, and its behaviour does not
depend on that prop at all. -/
theorem claim4_amended_bypass_no_mutation (hasRole : String → Bool) (env : BootInfo)
    (curFrm : Option String) (p : HideProps)
    (hArr : isArrayPerm p.permissions = true)
    (hbyp : userHasRole hasRole p.permissions = true) :
    okMutation (actions hasRole env curFrm (PropsArg.obj p)) = none ∧
    okMutation (comment hasRole env curFrm (PropsArg.obj p)) = none ∧
    okMutation (sidebar hasRole env curFrm (PropsArg.obj p)) = none ∧
    (∀ (ua : Bool) (frm : Option (List (String × String))) (nm : String),
      okMutation (fieldOp hasRole env ua frm nm p) = none ∧
      okMutation (sectionOp hasRole env ua frm nm p) = none) ∧
    (∀ (user : String) (c : TLCond) (f : FilterProp) (e : ExtrasProp) (d : Bool)
        (pm : PermProp) (dom : TLDom) (fetch : FetchOutcome),
      timeline env user hasRole ⟨c, f, e, p.permissions, d⟩ dom fetch =
        timeline env user hasRole ⟨c, f, e, pm, d⟩ dom fetch) := by
  obtain ⟨c, pm0, d⟩ := p
  simp only [HideProps.permissions] at hArr hbyp
  have hb : (isArrayPerm pm0 && userHasRole hasRole pm0) = true := by
    rw [hArr, hbyp]; rfl
  refine ⟨?_, ?_, ?_, ?_, ?_⟩
  · cases curFrm with
    | none => rfl
    | some dt => cases c <;> simp [actions, actionsMain, okMutation, hb]
  · cases curFrm with
    | none => rfl
    | some dt =>
        cases c with
        | undef => simp [comment, commentMain, okMutation, hb]
        | notFn => simp [comment, commentMain, okMutation, hb]
        | fn v =>
            cases v with
            | exn => rfl
            | ret b => cases b <;> simp [comment, commentMain, okMutation, hb]
  · cases curFrm with
    | none => rfl
    | some dt =>
        cases c with
        | undef => simp [sidebar, sidebarMain, okMutation, hb]
        | notFn => simp [sidebar, sidebarMain, okMutation, hb]
        | fn v =>
            cases v with
            | exn => rfl
            | ret b => cases b <;> simp [sidebar, sidebarMain, okMutation, hb]
  · intro ua frm nm
    cases ua <;> cases c <;>
      simp [fieldOp, sectionOp, okMutation, hb]
  · intro user c' f e d' pm dom fetch
    rfl

/-- Witness for claim C4 amended at a concrete input where the user
holds the single listed role. -/
theorem claim4_witness :
    isArrayPerm (PermProp.arr ["System Manager"]) = true ∧
    userHasRole (fun _ => true) (PermProp.arr ["System Manager"]) = true ∧
    okMutation (actions (fun _ => true) (BootInfo.noBoot none) (some "Meat")
      (PropsArg.obj ⟨Conditional.undef, PermProp.arr ["System Manager"], false⟩)) = none :=
  ⟨rfl, rfl, (claim4_amended_bypass_no_mutation (fun _ => true) (BootInfo.noBoot none)
      (some "Meat") ⟨Conditional.undef, PermProp.arr ["System Manager"], false⟩ rfl rfl).1⟩

/-- Claim C5: with filter.communications.userOnly true (nested
conditional absent or passing, container present, at least one
communication entry), every entry is hidden at the point the fetch is
issued; on fetch success exactly those entries are shown whose record
was returned and has the current user as sender or among the trimmed
comma separated recipients, all others remaining hidden; on fetch
failure, and on a falsy fetch message, every entry remains hidden. -/
theorem claim5_timeline_userOnly (env : BootInfo) (user : String)
    (hr : String → Bool) (dbg : Bool) (extras : ExtrasProp) (pm : PermProp)
    (dom : TLDom) (cc : Option CondVal)
    (hcc : cc = none ∨ cc = some (CondVal.ret true))
    (hcont : dom.containerExists = true)
    (hne : collectCommNames dom.items ≠ []) :
    corePendingVis (timelineCore env
        ⟨TLCond.undef, FilterProp.obj ⟨false, some ⟨true, cc⟩⟩, extras, pm, dbg⟩ dom) =
      some (dom.items.map (fun _ => ItemVis.hidden)) ∧
    (∀ recs : List CommRecord,
      tlProj TLOutcome.itemVis (timeline env user hr
          ⟨TLCond.undef, FilterProp.obj ⟨false, some ⟨true, cc⟩⟩, extras, pm, dbg⟩ dom
          (FetchOutcome.success recs)) =
        some (dom.items.map (fun i =>
          if isCommItem i && shouldDisplay user (findRecord recs i.name)
          then ItemVis.shown else ItemVis.hidden))) ∧
    (∀ (recs : List CommRecord) (i : TLItem),
      (isCommItem i && shouldDisplay user (findRecord recs i.name)) = true ↔
        (i.doctype = "Communication" ∧ i.name ≠ "" ∧
          ∃ r, findRecord recs i.name = some r ∧
            (r.sender = user ∨ user ∈ recipientTokens r.recipients))) ∧
    tlProj TLOutcome.itemVis (timeline env user hr
        ⟨TLCond.undef, FilterProp.obj ⟨false, some ⟨true, cc⟩⟩, extras, pm, dbg⟩ dom
        FetchOutcome.failure) =
      some (dom.items.map (fun _ => ItemVis.hidden)) ∧
    tlProj TLOutcome.itemVis (timeline env user hr
        ⟨TLCond.undef, FilterProp.obj ⟨false, some ⟨true, cc⟩⟩, extras, pm, dbg⟩ dom
        FetchOutcome.noMessage) =
      some (dom.items.map (fun _ => ItemVis.hidden)) := by
  have hfun : ∀ recs : List CommRecord,
      (fun i => if isCommItem i
        then if shouldDisplay user (findRecord recs i.name) then ItemVis.shown else ItemVis.hidden
        else ItemVis.hidden) =
      (fun i => if isCommItem i && shouldDisplay user (findRecord recs i.name)
        then ItemVis.shown else ItemVis.hidden) := by
    intro recs
    funext i
    cases h1 : isCommItem i <;>
      cases h2 : shouldDisplay user (findRecord recs i.name) <;> simp [h1, h2]
  refine ⟨?_, ?_, ?_, ?_, ?_⟩
  · rcases hlist : collectCommNames dom.items with _ | ⟨n, ns⟩
    · exact absurd hlist hne
    · rcases hcc with h | h <;> subst h <;>
        simp [timelineCore, commStep, corePendingVis, hcont, hlist]
  · intro recs
    rcases hlist : collectCommNames dom.items with _ | ⟨n, ns⟩
    · exact absurd hlist hne
    · rcases hcc with h | h <;> subst h <;>
        simp [timeline, timelineCore, commStep, timelineCallback, tlProj, hcont, hlist,
          processExtras_itemVis, hfun recs]
  · intro recs i
    cases hfr : findRecord recs i.name with
    | none => simp [isCommItem, shouldDisplay, hfr]
    | some r =>
        simp [isCommItem, shouldDisplay, hfr, List.elem_iff,
          Bool.and_eq_true, Bool.or_eq_true, beq_iff_eq, bne_iff_ne, and_assoc]
  · rcases hlist : collectCommNames dom.items with _ | ⟨n, ns⟩
    · exact absurd hlist hne
    · rcases hcc with h | h <;> subst h <;>
        simp [timeline, timelineCore, commStep, timelineCallback, tlProj, hcont, hlist,
          processExtras_itemVis]
  · rcases hlist : collectCommNames dom.items with _ | ⟨n, ns⟩
    · exact absurd hlist hne
    · rcases hcc with h | h <;> subst h <;>
        simp [timeline, timelineCore, commStep, timelineCallback, tlProj, hcont, hlist,
          processExtras_itemVis]

/-- Witness for claim C5 at a concrete input: one communication entry
whose record lists the current user among the recipients (with spaces to
exercise trimming) is shown, the non communication entry stays hidden. -/
theorem claim5_witness :
    (⟨true, true, [⟨"Communication", "c1"⟩, ⟨"Note", "n1"⟩]⟩ : TLDom).containerExists = true ∧
    collectCommNames [⟨"Communication", "c1"⟩, ⟨"Note", "n1"⟩] ≠ [] ∧
    tlProj TLOutcome.itemVis (timeline (BootInfo.noBoot none) "alice" (fun _ => false)
        ⟨TLCond.undef, FilterProp.obj ⟨false, some ⟨true, none⟩⟩, ExtrasProp.undef,
          PermProp.undef, false⟩
        ⟨true, true, [⟨"Communication", "c1"⟩, ⟨"Note", "n1"⟩]⟩
        (FetchOutcome.success [⟨"c1", "someone", " alice , bob"⟩])) =
      some [ItemVis.shown, ItemVis.hidden] :=
  ⟨rfl, by decide,
    (claim5_timeline_userOnly (BootInfo.noBoot none) "alice" (fun _ => false)
      false ExtrasProp.undef PermProp.undef
      ⟨true, true, [⟨"Communication", "c1"⟩, ⟨"Note", "n1"⟩]⟩ none (Or.inl rfl) rfl
      (by decide)).2.1 [⟨"c1", "someone", " alice , bob"⟩]⟩

/-- The synchronous phase never touches the activity switch. -/
def coreClear : TLCore → Prop
  | .done o => o.activityHidden = false
  | .pending o _ => o.activityHidden = false

theorem timelineCore_clear (env : BootInfo) (props : TimelineProps) (dom : TLDom)
    (r : TLCore) (h : timelineCore env props dom = .ok r) : coreClear r := by
  unfold timelineCore unrecognizedStep commStep at h
  repeat' split at h
  all_goals
    first
      | (simp only [Except.ok.injEq] at h; subst h; (repeat' split) <;> rfl)
      | simp at h

/-- Counterexample to claim C6: a top level conditional that throws is
not caught (only the communications filter conditional is), so the call
aborts with an exception and the extras step does not run on that call. -/
theorem claim6_throwing_conditional_skips_extras_cex :
    timeline (BootInfo.noBoot none) "user" (fun _ => false)
      ⟨TLCond.fn CondVal.exn, FilterProp.undef, ExtrasProp.undef, PermProp.undef, false⟩
      ⟨true, true, []⟩ FetchOutcome.failure = .error JsErr.condException :=
  rfl

/-- Claim C6 amended: the extras step runs on every normally returning
exit path of a timeline call (no filter, filter.all, communications
mode, conditional aborted, container not found, fetch completion or
failure), hiding the activity switch control exactly when
extras.hideActivitySwitch is not explicitly false; a top level
conditional that throws skips it.  In particular the cited example -
conditional returning false with hideActivitySwitch false - performs no
timeline mutation and leaves the activity switch alone. -/
theorem claim6_amended_extras_on_normal_paths (env : BootInfo) (user : String)
    (hr : String → Bool) (props : TimelineProps) (dom : TLDom) (fetch : FetchOutcome)
    (o : TLOutcome) (h : timeline env user hr props dom fetch = .ok o) :
    (o.extrasRan = true ∧ o.activityHidden = extrasFlag props.extras) ∧
    (∀ (pm : PermProp) (dom2 : TLDom) (fetch2 : FetchOutcome),
      timeline env user hr
          ⟨TLCond.fn (CondVal.ret false), FilterProp.undef, ExtrasProp.obj (some false),
            pm, false⟩ dom2 fetch2 =
        .ok ⟨false, dom2.items.map (fun _ => ItemVis.untouched), false, true, false, []⟩) := by
  constructor
  · cases hc : timelineCore env props dom with
    | error e => simp [timeline, hc] at h
    | ok r =>
        have hclear := timelineCore_clear env props dom r hc
        cases r with
        | done o' =>
            have ho : o = processExtras env props o' := by
              simp only [timeline, hc, Except.ok.injEq] at h
              exact h.symm
            subst ho
            exact ⟨processExtras_extrasRan env props o',
              processExtras_activity env props o' hclear⟩
        | pending o' ns =>
            have ho : o = timelineCallback env user props dom.items o' fetch := by
              simp only [timeline, hc, Except.ok.injEq] at h
              exact h.symm
            subst ho
            have hclear' : o'.activityHidden = false := hclear
            cases fetch with
            | success recs =>
                exact ⟨processExtras_extrasRan env props _,
                  by simpa [timelineCallback] using
                    processExtras_activity env props _ (by simpa using hclear')⟩
            | noMessage =>
                exact ⟨processExtras_extrasRan env props _,
                  by simpa [timelineCallback] using
                    processExtras_activity env props _ (by simpa using hclear')⟩
            | failure =>
                exact ⟨processExtras_extrasRan env props _,
                  by simpa [timelineCallback] using
                    processExtras_activity env props _ (by simpa using hclear')⟩
  · intro pm dom2 fetch2
    rfl

/-- Witness for claim C6 amended: a no filter call with default extras
hides the wrapper, runs the extras step and hides the activity switch. -/
theorem claim6_witness :
    timeline (BootInfo.noBoot none) "user" (fun _ => false)
      ⟨TLCond.undef, FilterProp.undef, ExtrasProp.undef, PermProp.undef, false⟩
      ⟨true, false, []⟩ FetchOutcome.failure = .ok ⟨true, [], true, true, false, []⟩ ∧
    ((⟨true, [], true, true, false, []⟩ : TLOutcome).extrasRan = true ∧
      (⟨true, [], true, true, false, []⟩ : TLOutcome).activityHidden =
        extrasFlag ExtrasProp.undef) :=
  ⟨rfl, (claim6_amended_extras_on_normal_paths (BootInfo.noBoot none) "user" (fun _ => false)
      ⟨TLCond.undef, FilterProp.undef, ExtrasProp.undef, PermProp.undef, false⟩
      ⟨true, false, []⟩ FetchOutcome.failure ⟨true, [], true, true, false, []⟩ rfl).1⟩

/-- Counterexample to claim C7: comment with a provided non callable
conditional does not fail closed - the typeof function guard simply
skips the conditional and the comment box is hidden anyway. -/
theorem claim7_comment_nonfn_conditional_cex :
    comment (fun _ => false) (BootInfo.noBoot none) (some "Meat")
      (PropsArg.obj ⟨Conditional.notFn, PermProp.undef, false⟩) =
      .ok ⟨some Vis.hidden, [], []⟩ :=
  rfl

/-- Claim C7 amended: a provided non callable conditional is a
configuration error handled differently per operation: actions and the
field and section dispatchers fail closed (no mutation, at most a gated
diagnostic, no throw), while comment and sidebar ignore it and proceed
to hide the region. -/
theorem claim7_amended_fail_closed (hasRole : String → Bool) (env : BootInfo)
    (dt : String) (frm : Option (List (String × String))) (nm : String)
    (pm : PermProp) (d : Bool)
    (hbyp : (isArrayPerm pm && userHasRole hasRole pm) = false) :
    actions hasRole env (some dt) (PropsArg.obj ⟨Conditional.notFn, pm, d⟩) =
      .ok ⟨none, dlog (devGate d env) Level.debugMsg
        "Umbra.action(): conditional must be a function.", []⟩ ∧
    fieldOp hasRole env true frm nm ⟨Conditional.notFn, pm, d⟩ =
      .ok ⟨none, dlog (devGate d env) Level.debugMsg
        "Umbra.field: conditional must be a function.", []⟩ ∧
    sectionOp hasRole env true frm nm ⟨Conditional.notFn, pm, d⟩ =
      .ok ⟨none, dlog (devGate d env) Level.debugMsg
        "Umbra.section: conditional must be a function.", []⟩ ∧
    Except.map Outcome.mutation (comment hasRole env (some dt)
      (PropsArg.obj ⟨Conditional.notFn, pm, d⟩)) = .ok (some Vis.hidden) ∧
    Except.map Outcome.mutation (sidebar hasRole env (some dt)
      (PropsArg.obj ⟨Conditional.notFn, pm, d⟩)) = .ok (some Vis.hidden) := by
  refine ⟨rfl, rfl, rfl, ?_, ?_⟩
  · simp [comment, commentMain, hbyp, Except.map]
  · simp [sidebar, sidebarMain, hbyp, Except.map]

/-- Witness for claim C7 amended at a concrete input. -/
theorem claim7_witness :
    (isArrayPerm PermProp.undef && userHasRole (fun _ => false) PermProp.undef) = false ∧
    actions (fun _ => false) (BootInfo.noBoot none) (some "Meat")
      (PropsArg.obj ⟨Conditional.notFn, PermProp.undef, false⟩) =
      .ok ⟨none, dlog (devGate false (BootInfo.noBoot none)) Level.debugMsg
        "Umbra.action(): conditional must be a function.", []⟩ :=
  ⟨rfl, (claim7_amended_fail_closed (fun _ => false) (BootInfo.noBoot none) "Meat"
      none "f" PermProp.undef false rfl).1⟩

/-- Counterexample to claim C8: a region hider conditional that throws
is not caught at the point of evaluation - comment propagates the
exception to its caller. -/
theorem claim8_comment_throw_propagates_cex :
    comment (fun _ => false) (BootInfo.noBoot none) (some "Meat")
      (PropsArg.obj ⟨Conditional.fn CondVal.exn, PermProp.undef, false⟩) =
      .error JsErr.condException :=
  rfl

/-- Claim C8 amended: only the communications filter conditional of the
timeline operation is evaluated inside try catch - a throw there is
treated as a false result: the call returns normally, performs no
timeline mutation, logs an ungated warning, and still runs the extras
step.  Conditionals of every other operation (and the top level timeline
conditional) propagate their exception to the caller. -/
theorem claim8_amended_comm_conditional_caught (env : BootInfo) (user : String)
    (hr : String → Bool) (uo : Bool) (extras : ExtrasProp) (pm : PermProp)
    (dbg : Bool) (dom : TLDom) (fetch : FetchOutcome) :
    tlProj TLOutcome.wrapperHidden (timeline env user hr
        ⟨TLCond.undef, FilterProp.obj ⟨false, some ⟨uo, some CondVal.exn⟩⟩, extras, pm, dbg⟩
        dom fetch) = some false ∧
    tlProj TLOutcome.itemVis (timeline env user hr
        ⟨TLCond.undef, FilterProp.obj ⟨false, some ⟨uo, some CondVal.exn⟩⟩, extras, pm, dbg⟩
        dom fetch) = some (dom.items.map (fun _ => ItemVis.untouched)) ∧
    tlProj TLOutcome.extrasRan (timeline env user hr
        ⟨TLCond.undef, FilterProp.obj ⟨false, some ⟨uo, some CondVal.exn⟩⟩, extras, pm, dbg⟩
        dom fetch) = some true ∧
    tlProj (fun o => o.logs.contains
        ⟨Level.warn, "Umbra.timeline: Error in communications filter conditional function."⟩)
      (timeline env user hr
        ⟨TLCond.undef, FilterProp.obj ⟨false, some ⟨uo, some CondVal.exn⟩⟩, extras, pm, dbg⟩
        dom fetch) = some true := by
  refine ⟨?_, ?_, ?_, ?_⟩ <;>
    (simp [timeline, timelineCore, commStep, tlProj, initOutcome, processExtras, dlog]
     ; split <;> simp [List.contains_cons])

/-- Counterexample to claim C9: a field dispatcher call whose name is
not found, made with debug false, emits no warning and no notice at all
(the not-found branch is entirely inside the debug gate), contradicting
the claimed emission regardless of the debug flag. -/
theorem claim9_field_notfound_silent_cex :
    fieldOp (fun _ => false) (BootInfo.boot true) true (some []) "custom_status"
      ⟨Conditional.fn (CondVal.ret true), PermProp.undef, false⟩ = .ok ⟨none, [], []⟩ :=
  rfl

/-- Claim C9 amended: on a dispatcher abort no mutation occurs, but the
diagnostics differ by case: the field variant kind mismatch warns and
notifies unconditionally, naming the requested name and the actual kind;
the not-found case (both variants) and the section variant kind mismatch
emit only under debug in a development environment - and in that last
case the alert construction references an identifier that is not in
scope, so the call throws a ReferenceError instead of notifying. -/
theorem claim9_amended_dispatcher_diagnostics (hasRole : String → Bool) (env : BootInfo)
    (pm : PermProp) (v : CondVal) (ft : String)
    (frm : Option (List (String × String))) (nm1 nm2 nm3 : String) (d d1 d2 : Bool)
    (hbyp : (isArrayPerm pm && userHasRole hasRole pm) = false)
    (hg1 : devGate d1 env = false)
    (hg2 : devGate d2 env = true)
    (hlk1 : frm.bind (fun dct => dct.lookup nm1) = some ft)
    (hbrk : ft = "Tab Break" ∨ ft = "Section Break" ∨ ft = "Column Break")
    (hnf : frm.bind (fun dct => dct.lookup nm2) = none)
    (hlk3 : frm.bind (fun dct => dct.lookup nm3) = some "Data") :
    fieldOp hasRole env true frm nm1 ⟨Conditional.fn v, pm, d⟩ =
      .ok ⟨none,
        [⟨Level.warn, "Umbra.field." ++ nm1 ++ "(): Field type " ++ ft
          ++ " cannot be hidden using Umbra.field."⟩],
        ["Field " ++ nm1 ++ " is a " ++ ft ++ " and cannot be hidden using Umbra.field."]⟩ ∧
    fieldOp hasRole env true frm nm2 ⟨Conditional.fn v, pm, d1⟩ = .ok ⟨none, [], []⟩ ∧
    sectionOp hasRole env true frm nm2 ⟨Conditional.fn v, pm, d1⟩ = .ok ⟨none, [], []⟩ ∧
    sectionOp hasRole env true frm nm3 ⟨Conditional.fn v, pm, d1⟩ = .ok ⟨none, [], []⟩ ∧
    sectionOp hasRole env true frm nm3 ⟨Conditional.fn v, pm, d2⟩ = .error JsErr.refError := by
  refine ⟨?_, ?_, ?_, ?_, ?_⟩
  · rcases hbrk with h | h | h <;> simp [fieldOp, hbyp, hlk1, h]
  · simp [fieldOp, hbyp, hnf, hg1, dlog]
  · simp [sectionOp, hbyp, hnf, hg1, dlog]
  · simp [sectionOp, hbyp, hlk3, hg1, dlog]
  · simp [sectionOp, hbyp, hlk3, hg2]

/-- Witness for claim C9 amended at a concrete input: in development
with debug true, a section dispatcher call naming a plain Data field
throws the ReferenceError. -/
theorem claim9_witness :
    devGate true (BootInfo.boot true) = true ∧
    (some [("tb", "Tab Break"), ("dt", "Data")] : Option (List (String × String))).bind
      (fun dct => dct.lookup "dt") = some "Data" ∧
    sectionOp (fun _ => false) (BootInfo.boot true) true
      (some [("tb", "Tab Break"), ("dt", "Data")]) "dt"
      ⟨Conditional.fn (CondVal.ret true), PermProp.undef, true⟩ = .error JsErr.refError :=
  ⟨rfl, rfl,
    (claim9_amended_dispatcher_diagnostics (fun _ => false) (BootInfo.boot true)
      PermProp.undef (CondVal.ret true) "Tab Break"
      (some [("tb", "Tab Break"), ("dt", "Data")]) "tb" "missing" "dt" false false true
      rfl rfl rfl rfl (Or.inl rfl) rfl rfl).2.2.2.2⟩

end Umbra
